import Mathlib

/-!
Shallow embedding of the butido batch-verification core
(`src/commands/util.rs`, `src/commands/lint.rs`, `src/commands/source.rs`,
`src/commands/versions_of.rs`).

External collaborators (the repository loader, `ScriptBuilder`, the actual
linter subprocess, the on-disk source cache) are modelled as explicit inputs
(oracle functions / data), so every command becomes a pure Lean function of
its inputs.  Concurrency: the original fans jobs out through a
`FuturesUnordered` stream and collects the results; completion order is
nondeterministic, so the embedding fixes one admissible linearization
(submission order) and models the stream-`collect` into `Result<Vec<_>>`,
which stops at the first `Err` item, as a short-circuiting fold.
-/

namespace Butido

/-- `PhaseName` (opaque string identifier, `src/package`). -/
abbrev PhaseName := String

/-- The source descriptor a package owns: URL and expected hash
(`crate::package::Source`, consumed via `p.source().url()`). -/
structure SourceDescr where
  url : String
  hash : String
deriving Repr, DecidableEq

/-- An entity ("package"): name, version, the keys of its declared phase map
(in declaration order), and its source descriptor. -/
structure Package where
  name : String
  version : String
  phases : List PhaseName
  source : SourceDescr
deriving Repr, DecidableEq

/-- The repository: an iterable sequence of packages (`repo.packages()`). -/
structure Repository where
  packages : List Package
deriving Repr, DecidableEq

/-- The configuration values this core consumes (`crate::config`). -/
structure Configuration where
  available_phases : List PhaseName
  shebang : String
  strict_script_interpolation : Bool
  source_cache_root : String
deriving Repr, DecidableEq

/-- Structured rendering of the `anyhow` error messages the embedded code
produces; each constructor records exactly the data interpolated into the
corresponding format string of the source. -/
inductive LintError where
  /-- "Phase '…' available in {name} {version}, but not in config" -/
  | phaseNotInConfig (phase : PhaseName) (pkgName pkgVersion : String)
  /-- "Phase '…' not configured in {name} {version}" -/
  | phaseNotConfigured (phase : PhaseName) (pkgName pkgVersion : String)
  /-- a `ScriptBuilder::build` failure, propagated verbatim by `?` -/
  | scriptBuild (msg : String)
  /-- a `script.lint(cmd)` failure (subprocess launch error), propagated by `?` -/
  | lintRun (msg : String)
  /-- "Linting was not successful" — note: no entity-level data at all -/
  | lintNotSuccessful
  /-- "No linter command found" -/
  | noLinterFound
  /-- an error from `crate::ui::find_linter_command`, propagated by `?` -/
  | linterLookup (msg : String)
  /-- a `PackageVersionConstraint::new` parse failure, propagated by `?` -/
  | filterParse (msg : String)
deriving Repr, DecidableEq

/-- Decidable equality for `Except`, used to evaluate concrete runs. -/
instance {ε α : Type} [DecidableEq ε] [DecidableEq α] : DecidableEq (Except ε α) :=
  fun a b =>
    match a, b with
    | .error e, .error e' =>
      if h : e = e' then .isTrue (by rw [h]) else .isFalse (by simp [h])
    | .ok x, .ok y =>
      if h : x = y then .isTrue (by rw [h]) else .isFalse (by simp [h])
    | .error _, .ok _ => .isFalse (by simp)
    | .ok _, .error _ => .isFalse (by simp)

/-- `all_phases_available` (`src/commands/util.rs:109-137`): first look for a
package-declared phase missing from the configured set, then for a configured
phase missing from the package's declared set. -/
def all_phases_available (pkg : Package) (available_phases : List PhaseName) :
    Except LintError Unit :=
  let package_phasenames := pkg.phases
  match package_phasenames.find? (fun name => !available_phases.contains name) with
  | some phase => .error (.phaseNotInConfig phase pkg.name pkg.version)
  | none =>
    match available_phases.find? (fun name => !package_phasenames.contains name) with
    | some phase => .error (.phaseNotConfigured phase pkg.name pkg.version)
    | none => .ok ()

/-- The data captured from one linter subprocess run (`script.lint(cmd)`):
the exit status's `success()` flag and the two captured output streams. -/
structure LintOutcome where
  statusSuccess : Bool
  stdout : String
  stderr : String
deriving Repr, DecidableEq

/-- External collaborators of one lint job: `ScriptBuilder::build` (script
construction may fail, e.g. under strict interpolation) and the linter
subprocess itself, as oracle functions of the linter path and the package. -/
structure LintEnv where
  buildScript : Package → Except String Unit
  runLint : String → Package → Except String LintOutcome

/-- The tuple a successful lint job yields
(`(pkg.name(), pkg.version(), status, stdout, stderr)`). -/
structure JobOutcome where
  name : String
  version : String
  statusSuccess : Bool
  stdout : String
  stderr : String
deriving Repr, DecidableEq

/-- One job's result, plus whether the linter subprocess was actually
invoked (only after the preflight gate and script construction succeed). -/
structure JobStep where
  res : Except LintError JobOutcome
  invokedLinter : Bool
deriving Repr, DecidableEq

/-- The body of the per-package async block of `lint_packages`
(`src/commands/util.rs:49-60`): preflight gate, script construction, linter
invocation; each `?` turns a failure into this job's `Err` result. -/
def lintJob (linter : String) (config : Configuration) (env : LintEnv)
    (pkg : Package) : JobStep :=
  match all_phases_available pkg config.available_phases with
  | .error e => ⟨.error e, false⟩
  | .ok _ =>
    match env.buildScript pkg with
    | .error e => ⟨.error (.scriptBuild e), false⟩
    | .ok _ =>
      match env.runLint linter pkg with
      | .error e => ⟨.error (.lintRun e), true⟩
      | .ok r => ⟨.ok ⟨pkg.name, pkg.version, r.statusSuccess, r.stdout, r.stderr⟩, true⟩

/-- The `indicatif::ProgressBar` surface this core touches: a completion
counter, a message, and whether the bar was finished. -/
structure ProgressBar where
  count : Nat
  message : String
  finished : Bool
deriving Repr, DecidableEq

def ProgressBar.inc (bar : ProgressBar) : ProgressBar :=
  { bar with count := bar.count + 1 }

def ProgressBar.set_message (bar : ProgressBar) (m : String) : ProgressBar :=
  { bar with message := m }

def ProgressBar.finish_with_message (bar : ProgressBar) (m : String) : ProgressBar :=
  { bar with message := m, finished := true }

/-- Result of the fan-out/collect stage: the collected tuples (or the first
`Err` in completion order), the progress-bar state, and the trace of packages
whose linter subprocess was invoked. -/
structure SchedResult where
  collected : Except LintError (List JobOutcome)
  bar : ProgressBar
  ran : List Package
deriving Repr, DecidableEq

/-- The `FuturesUnordered` fan-out collected into `Result<Vec<_>>`
(`src/commands/util.rs:45-64`), in the submission-order linearization: each
job runs, a successful job bumps the bar (`bar.inc(1)` sits after
`script.lint(cmd).await?`), and the collect stops at the first `Err` item,
dropping the remaining jobs. -/
def runJobs (linter : String) (config : Configuration) (env : LintEnv) :
    List Package → ProgressBar → SchedResult
  | [], bar => ⟨.ok [], bar, []⟩
  | pkg :: rest, bar =>
    let step := lintJob linter config env pkg
    let ranHere := if step.invokedLinter then [pkg] else []
    match step.res with
    | .error e => ⟨.error e, bar, ranHere⟩
    | .ok t =>
      let s := runJobs linter config env rest bar.inc
      match s.collected with
      | .error e => ⟨.error e, s.bar, ranHere ++ s.ran⟩
      | .ok ts => ⟨.ok (t :: ts), s.bar, ranHere ++ s.ran⟩

/-- One log record emitted for a collected outcome
(`src/commands/util.rs:66-93`): `info!` for a successful exit status,
`error!` otherwise — `success` records which level was used. -/
structure LogRecord where
  success : Bool
  name : String
  version : String
  stdout : String
  stderr : String
deriving Repr, DecidableEq

def logOutcome (o : JobOutcome) : LogRecord :=
  ⟨o.statusSuccess, o.name, o.version, o.stdout, o.stderr⟩

/-- What one call of `lint_packages` produces: the returned `Result`, the
final progress-bar state, the log records emitted, and the trace of packages
whose linter subprocess ran. -/
structure LintRun where
  result : Except LintError Unit
  bar : ProgressBar
  logs : List LogRecord
  ran : List Package
deriving Repr, DecidableEq

/-- `lint_packages` (`src/commands/util.rs:35-107`): fan the jobs out,
collect (`?` propagates the first `Err`, skipping the logging stage), log
each collected outcome, reduce with `all`, and either fail with the
summary error or finish the bar with the success message. -/
def lint_packages (linter : String) (config : Configuration) (env : LintEnv)
    (pkgs : List Package) (bar : ProgressBar) : LintRun :=
  let s := runJobs linter config env pkgs bar
  match s.collected with
  | .error e => ⟨.error e, s.bar, [], s.ran⟩
  | .ok outcomes =>
    let logs := outcomes.map logOutcome
    let lint_results := outcomes.map (fun o => o.statusSuccess)
    let lint_ok := lint_results.all (fun b => b)
    if !lint_ok then
      ⟨.error .lintNotSuccessful, s.bar.finish_with_message "Linting errored", logs, s.ran⟩
    else
      ⟨.ok (), s.bar.finish_with_message
        (s!"Finished linting {lint_results.length} package scripts"), logs, s.ran⟩

/-- A parsed version constraint (`crate::package::PackageVersionConstraint`),
consumed only through its `matches` predicate on version strings. -/
structure PackageVersionConstraint where
  matches' : String → Bool

/-- `Option<Result<T, E>>::transpose()` as used on the parsed
`package_version` argument. -/
def transposeMap (parse : String → Except String PackageVersionConstraint) :
    Option String → Except String (Option PackageVersionConstraint)
  | none => .ok none
  | some s => (parse s).map some

/-- The working-set filter shared by `lint`, `source verify` and
`source url`: `.filter(|p| pname …).filter(|p| pvers …)`, an absent
predicate defaulting to `true` (`unwrap_or(true)`). -/
def filterPackages (repo : Repository) (pname : Option String)
    (pvers : Option PackageVersionConstraint) : List Package :=
  (repo.packages.filter
      (fun p => (pname.map (fun n => p.name == n)).getD true)).filter
    (fun p => (pvers.map (fun v => v.matches' p.version)).getD true)

/-- `lint` (`src/commands/lint.rs:13-27`): resolve the linter command
(propagated lookup error, or "No linter command found" when absent), parse
the optional version constraint (`transpose()?`), set the bar message,
filter the working set and hand it to `lint_packages`. -/
def lint (findLinter : Except String (Option String))
    (pnameArg pversArg : Option String)
    (parseV : String → Except String PackageVersionConstraint)
    (config : Configuration) (env : LintEnv) (repo : Repository)
    (bar : ProgressBar) : LintRun :=
  match findLinter with
  | .error e => ⟨.error (.linterLookup e), bar, [], []⟩
  | .ok none => ⟨.error .noLinterFound, bar, [], []⟩
  | .ok (some linter) =>
    match transposeMap parseV pversArg with
    | .error e => ⟨.error (.filterParse e), bar, [], []⟩
    | .ok pvers =>
      let bar := bar.set_message "Linting package scripts..."
      lint_packages linter config env (filterPackages repo pnameArg pvers) bar

/-- Modelled from the spec: the handle `crate::source::SourceCache` maps an
entity to (artifact path, existence, asynchronous hash recomputation against
the recorded expected hash) — §6 "SourceCache" and §4.4 of the spec; the
implementation of `crate::source` is not part of the provided sources.
`present` models `source.exists()`, `computedHash` the recomputed content
hash, `expectedHash` the recorded expected hash. -/
structure Source where
  path : String
  present : Bool
  computedHash : String
  expectedHash : String
deriving Repr, DecidableEq

/-- Modelled from the spec: `source.verify_hash()` recomputes the content
hash and compares it to the recorded expected hash (spec §4.4). -/
def Source.verify_hash (s : Source) : Bool :=
  s.computedHash == s.expectedHash

/-- Modelled from the spec: `SourceCache::source_for` maps a package to its
cached-artifact handle (spec §6). -/
structure SourceCache where
  source_for : Package → Source

/-- `verify` (`src/commands/source.rs:24-55`): filter the working set, and
per package print exactly one of the three lines depending on artifact
existence and `verify_hash`.  The output lines are modelled in the
submission-order linearization of the unordered stream. -/
def verify (pnameArg pversArg : Option String)
    (parseV : String → Except String PackageVersionConstraint)
    (sc : SourceCache) (repo : Repository) : Except String (List String) :=
  match transposeMap parseV pversArg with
  | .error e => .error e
  | .ok pvers =>
    .ok ((filterPackages repo pnameArg pvers).map (fun p =>
      let source := sc.source_for p
      if source.present then
        if source.verify_hash then s!"Ok: {source.path}"
        else s!"Hash Mismatch: {source.path}"
      else s!"Source missing: {source.path}"))

/-- `url` (`src/commands/source.rs:74-86`): filter the working set and print
one line per package from its own source descriptor.  The function receives
the source cache only to state the frame property — the body never consults
it, mirroring that the original creates no cache handle at all. -/
def url (pnameArg pversArg : Option String)
    (parseV : String → Except String PackageVersionConstraint)
    (_sc : SourceCache) (repo : Repository) : Except String (List String) :=
  match transposeMap parseV pversArg with
  | .error e => .error e
  | .ok pvers =>
    .ok ((filterPackages repo pnameArg pvers).map (fun p =>
      s!"{p.name} {p.version} -> {p.source.url}"))

/-- Modelled from the spec: `crate::util::filters::build_package_filter_by_name`
is the NameEquals predicate (spec §8 "Filtering by exact name returns only
entities with that name", §9); its implementation is not in the provided
sources. -/
def build_package_filter_by_name (name : String) : Package → Bool :=
  fun p => p.name == name

/-- `versions_of` (`src/commands/versions_of.rs:8-26`): `.unwrap()` on the
`package_name` argument — `none` models the `Option::unwrap` panic (the
function never returns a `Result` error for an absent argument); with the
argument present it prints the version of every package with that name. -/
def versions_of (packageNameArg : Option String) (repo : Repository) :
    Option (List String) :=
  match packageNameArg with
  | none => none
  | some nm =>
    some ((repo.packages.filter (build_package_filter_by_name nm)).map
      (fun p => p.version))

/-! Concrete fixtures used to evaluate the embedding on closed inputs. -/

def bar0 : ProgressBar := ⟨0, "", false⟩

def srcW : SourceDescr := ⟨"https://example.org/a.tar.gz", "abc123"⟩

/-- Declares exactly the configured phases. -/
def pkgGood : Package := ⟨"pkg-a", "1.0", ["build", "install"], srcW⟩

/-- Declares a phase (`weird`) that is not configured. -/
def pkgBadPhase : Package := ⟨"pkg-b", "2.0", ["build", "weird"], srcW⟩

/-- Misses the configured phase `install`. -/
def pkgMissingPhase : Package := ⟨"pkg-c", "3.0", ["build"], srcW⟩

/-- A second package declaring exactly the configured phases. -/
def pkgGood2 : Package := ⟨"pkg-d", "1.0", ["build", "install"], srcW⟩

def cfgW : Configuration := ⟨["build", "install"], "#!/bin/bash", true, "/cache"⟩

/-- Every script builds and every linter run exits successfully. -/
def envAllOk : LintEnv := ⟨fun _ => .ok (), fun _ _ => .ok ⟨true, "out", "err"⟩⟩

/-- Every job completes, but `pkg-a`'s linter exits unsuccessfully. -/
def envFirstFails : LintEnv :=
  ⟨fun _ => .ok (), fun _ p => .ok ⟨p.name != "pkg-a", "out", "err"⟩⟩

def repoW : Repository := ⟨[pkgGood, pkgBadPhase, pkgMissingPhase]⟩

/-- Exact-version constraint parser: the parsed constraint matches exactly
the given version string. -/
def parseExact : String → Except String PackageVersionConstraint :=
  fun s => .ok ⟨fun v => v == s⟩

/-- A parser that rejects every input. -/
def parseFailAll : String → Except String PackageVersionConstraint :=
  fun s => .error ("invalid constraint: " ++ s)

/-- A cache in which only `pkg-a`'s artifact is present, with matching hash. -/
def scW : SourceCache :=
  ⟨fun p => ⟨"/cache/" ++ p.name, p.name == "pkg-a", "h1", "h1"⟩⟩

end Butido

namespace Butido

/-! Preflight validator (`all_phases_available`). -/

theorem apa_eq (pkg : Package) (avail : List PhaseName) :
    all_phases_available pkg avail =
      match pkg.phases.find? (fun name => !avail.contains name) with
      | some phase => .error (.phaseNotInConfig phase pkg.name pkg.version)
      | none =>
        match avail.find? (fun name => !pkg.phases.contains name) with
        | some phase => .error (.phaseNotConfigured phase pkg.name pkg.version)
        | none => .ok () := rfl

theorem apa_ok_iff (pkg : Package) (avail : List PhaseName) :
    all_phases_available pkg avail = .ok () ↔
      ((∀ n ∈ pkg.phases, n ∈ avail) ∧ (∀ n ∈ avail, n ∈ pkg.phases)) := by
  constructor
  · intro h
    rw [apa_eq] at h
    cases hf : pkg.phases.find? (fun name => !avail.contains name) with
    | some ph => rw [hf] at h; simp at h
    | none =>
      rw [hf] at h
      cases hg : avail.find? (fun name => !pkg.phases.contains name) with
      | some ph => rw [hg] at h; simp at h
      | none =>
        constructor
        · intro n hn
          have := List.find?_eq_none.mp hf n hn
          simpa using this
        · intro n hn
          have := List.find?_eq_none.mp hg n hn
          simpa using this
  · rintro ⟨hp, hq⟩
    have hf : pkg.phases.find? (fun name => !avail.contains name) = none := by
      apply List.find?_eq_none.mpr
      intro n hn
      simpa using hp n hn
    have hg : avail.find? (fun name => !pkg.phases.contains name) = none := by
      apply List.find?_eq_none.mpr
      intro n hn
      simpa using hq n hn
    rw [apa_eq, hf, hg]

theorem apa_extra_phase (pkg : Package) (avail : List PhaseName)
    (h : ∃ n ∈ pkg.phases, n ∉ avail) :
    ∃ n ∈ pkg.phases, n ∉ avail ∧
      all_phases_available pkg avail
        = .error (.phaseNotInConfig n pkg.name pkg.version) := by
  obtain ⟨n, hn, hna⟩ := h
  have hsome : (pkg.phases.find? (fun name => !avail.contains name)).isSome := by
    apply List.find?_isSome.mpr
    exact ⟨n, hn, by simpa using hna⟩
  cases hf : pkg.phases.find? (fun name => !avail.contains name) with
  | none => rw [hf] at hsome; simp at hsome
  | some ph =>
    refine ⟨ph, List.mem_of_find?_eq_some hf, ?_, by rw [apa_eq, hf]⟩
    have := List.find?_some hf
    simpa using this

theorem apa_extra_phase_precedence (pkg : Package) (avail : List PhaseName)
    (h : ∃ n ∈ pkg.phases, n ∉ avail) :
    ∀ m nm vr, all_phases_available pkg avail ≠ .error (.phaseNotConfigured m nm vr) := by
  obtain ⟨n, hn, hna⟩ := h
  have hsome : (pkg.phases.find? (fun name => !avail.contains name)).isSome := by
    apply List.find?_isSome.mpr
    exact ⟨n, hn, by simpa using hna⟩
  cases hf : pkg.phases.find? (fun name => !avail.contains name) with
  | none => rw [hf] at hsome; simp at hsome
  | some ph =>
    intro m nm vr
    rw [apa_eq, hf]
    simp

theorem apa_missing_phase (pkg : Package) (avail : List PhaseName)
    (h1 : ∀ n ∈ pkg.phases, n ∈ avail) (h2 : ∃ n ∈ avail, n ∉ pkg.phases) :
    ∃ n ∈ avail, n ∉ pkg.phases ∧
      all_phases_available pkg avail
        = .error (.phaseNotConfigured n pkg.name pkg.version) := by
  have hf : pkg.phases.find? (fun name => !avail.contains name) = none := by
    apply List.find?_eq_none.mpr
    intro n hn
    simpa using h1 n hn
  obtain ⟨n, hn, hnp⟩ := h2
  have hsome : (avail.find? (fun name => !pkg.phases.contains name)).isSome := by
    apply List.find?_isSome.mpr
    exact ⟨n, hn, by simpa using hnp⟩
  cases hg : avail.find? (fun name => !pkg.phases.contains name) with
  | none => rw [hg] at hsome; simp at hsome
  | some ph =>
    refine ⟨ph, List.mem_of_find?_eq_some hg, ?_, by rw [apa_eq, hf, hg]⟩
    have := List.find?_some hg
    simpa using this

/-- C2: For every entity and configured phase set, `all_phases_available`
first reports an entity-declared phase absent from the configured set (naming
that phase, and never reporting the other direction in that case); only if
every declared phase is configured does it report a configured phase absent
from the entity's declared set (naming that phase); it succeeds exactly when
the two phase-name sets are mutually contained; as an `Except` value it
reports at most one violation. -/
theorem all_phases_available_spec (pkg : Package) (avail : List PhaseName) :
    (all_phases_available pkg avail = .ok () ↔
      ((∀ n ∈ pkg.phases, n ∈ avail) ∧ (∀ n ∈ avail, n ∈ pkg.phases)))
    ∧ ((∃ n ∈ pkg.phases, n ∉ avail) →
        (∃ n ∈ pkg.phases, n ∉ avail ∧
          all_phases_available pkg avail
            = .error (.phaseNotInConfig n pkg.name pkg.version))
        ∧ ∀ m nm vr,
            all_phases_available pkg avail ≠ .error (.phaseNotConfigured m nm vr))
    ∧ ((∀ n ∈ pkg.phases, n ∈ avail) → (∃ n ∈ avail, n ∉ pkg.phases) →
        ∃ n ∈ avail, n ∉ pkg.phases ∧
          all_phases_available pkg avail
            = .error (.phaseNotConfigured n pkg.name pkg.version)) :=
  ⟨apa_ok_iff pkg avail,
   fun h => ⟨apa_extra_phase pkg avail h, apa_extra_phase_precedence pkg avail h⟩,
   apa_missing_phase pkg avail⟩

/-- Witness for C2: a package declaring the unconfigured phase `weird` is
rejected with the extra-declared-phase violation, and never with the
missing-declared-phase violation. -/
theorem all_phases_available_spec_witness :
    (∃ n ∈ pkgBadPhase.phases, n ∉ cfgW.available_phases)
    ∧ ((∃ n ∈ pkgBadPhase.phases, n ∉ cfgW.available_phases ∧
          all_phases_available pkgBadPhase cfgW.available_phases
            = .error (.phaseNotInConfig n pkgBadPhase.name pkgBadPhase.version))
        ∧ ∀ m nm vr,
            all_phases_available pkgBadPhase cfgW.available_phases
              ≠ .error (.phaseNotConfigured m nm vr)) :=
  ⟨by decide,
   (all_phases_available_spec pkgBadPhase cfgW.available_phases).2.1 (by decide)⟩

/-! Scheduler and aggregation lemmas. -/

theorem lintJob_ok_ids (linter : String) (config : Configuration) (env : LintEnv)
    (pkg : Package) (t : JobOutcome)
    (h : (lintJob linter config env pkg).res = .ok t) :
    t.name = pkg.name ∧ t.version = pkg.version := by
  unfold lintJob at h
  cases ha : all_phases_available pkg config.available_phases with
  | error e => rw [ha] at h; simp at h
  | ok u =>
    rw [ha] at h
    cases hb : env.buildScript pkg with
    | error e => rw [hb] at h; simp at h
    | ok v =>
      rw [hb] at h
      cases hc : env.runLint linter pkg with
      | error e => rw [hc] at h; simp at h
      | ok r =>
        rw [hc] at h
        simp at h
        rw [← h]
        exact ⟨rfl, rfl⟩

theorem runJobs_all_ok (linter : String) (config : Configuration) (env : LintEnv) :
    ∀ (pkgs : List Package) (bar : ProgressBar),
      (∀ p ∈ pkgs, ∃ t, (lintJob linter config env p).res = .ok t) →
      ∃ outcomes,
        (runJobs linter config env pkgs bar).collected = .ok outcomes
        ∧ outcomes.map (fun o => (o.name, o.version))
            = pkgs.map (fun p => (p.name, p.version))
        ∧ (runJobs linter config env pkgs bar).bar.count = bar.count + pkgs.length := by
  intro pkgs
  induction pkgs with
  | nil =>
    intro bar _
    exact ⟨[], rfl, rfl, by simp [runJobs]⟩
  | cons p rest ih =>
    intro bar hall
    obtain ⟨t, ht⟩ := hall p (List.mem_cons_self p rest)
    obtain ⟨outs, h1, h2, h3⟩ := ih bar.inc (fun q hq => hall q (List.mem_cons_of_mem p hq))
    obtain ⟨hn, hv⟩ := lintJob_ok_ids linter config env p t ht
    refine ⟨t :: outs, ?_, ?_, ?_⟩
    · simp [runJobs, ht, h1]
    · simp [h2, hn, hv]
    · have hbar : (runJobs linter config env (p :: rest) bar).bar
          = (runJobs linter config env rest bar.inc).bar := by
        simp [runJobs, ht, h1]
      rw [hbar, h3]
      simp [ProgressBar.inc]
      omega

theorem lint_packages_of_collected_ok (linter : String) (config : Configuration)
    (env : LintEnv) (pkgs : List Package) (bar : ProgressBar)
    (outs : List JobOutcome)
    (h : (runJobs linter config env pkgs bar).collected = .ok outs) :
    lint_packages linter config env pkgs bar =
      if outs.all (fun o => o.statusSuccess) then
        ⟨.ok (),
          (runJobs linter config env pkgs bar).bar.finish_with_message
            (s!"Finished linting {outs.length} package scripts"),
          outs.map logOutcome, (runJobs linter config env pkgs bar).ran⟩
      else
        ⟨.error .lintNotSuccessful,
          (runJobs linter config env pkgs bar).bar.finish_with_message "Linting errored",
          outs.map logOutcome, (runJobs linter config env pkgs bar).ran⟩ := by
  by_cases hA : outs.all (fun o => o.statusSuccess)
  · simp [lint_packages, h, hA]
    intro x hx
    exact List.all_eq_true.mp hA x hx
  · simp [lint_packages, h, hA]
    have hex := mt List.all_eq_true.mpr hA
    push_neg at hex
    obtain ⟨x, hx, hfalse⟩ := hex
    exact ⟨x, hx, by simpa using hfalse⟩

/-- C9: on an empty working set, `lint_packages` succeeds, finishes the bar
with "Finished linting 0 package scripts", and emits no log record and no
per-entity error. -/
theorem lint_packages_empty_ok (linter : String) (config : Configuration)
    (env : LintEnv) (bar : ProgressBar) :
    lint_packages linter config env [] bar =
      ⟨.ok (), { bar with message := "Finished linting 0 package scripts", finished := true },
        [], []⟩ := by
  have hmsg : (s!"Finished linting {(0 : Nat)} package scripts")
      = "Finished linting 0 package scripts" := by decide
  simp [lint_packages, runJobs, ProgressBar.finish_with_message, hmsg]

theorem finish_message_distinct (n : Nat) :
    s!"Finished linting {n} package scripts" ≠ "Linting errored" := by
  intro h
  have hl := congrArg String.length h
  rw [show s!"Finished linting {n} package scripts"
      = "Finished linting " ++ toString n ++ " package scripts" from rfl] at hl
  simp [String.length_append] at hl
  have h17 : ("Finished linting " : String).length = 17 := by decide
  have h16 : (" package scripts" : String).length = 16 := by decide
  have h15 : ("Linting errored" : String).length = 15 := by decide
  omega

/-! C1 — run-to-completion. -/

/-- Counterexample to C1 as stated: two entities enter scheduling, the first
fails preflight; `lint_packages` then returns that entity's error with zero
recorded outcomes (no log records) — the sibling entity's job never runs and
produces no recorded outcome, so the number of outcomes (0) differs from the
number of entities that entered scheduling (2).  The `Result`-collect over
the unordered stream stops at the first `Err` item. -/
theorem preflight_failure_cancels_siblings_cex :
    ([pkgBadPhase, pkgGood].length = 2)
    ∧ (lint_packages "lint" cfgW envAllOk [pkgBadPhase, pkgGood] bar0).logs.length = 0
    ∧ (lint_packages "lint" cfgW envAllOk [pkgBadPhase, pkgGood] bar0).ran = []
    ∧ (lint_packages "lint" cfgW envAllOk [pkgBadPhase, pkgGood] bar0).result
        = .error (.phaseNotInConfig "weird" "pkg-b" "2.0") :=
  ⟨rfl, rfl, rfl, rfl⟩

/-- C1 (amended): run-to-completion holds for linter-exit failures: whenever
every entity's job completes with an outcome tuple (its preflight passes, its
script builds and the linter runs to an exit status), every entity produces
exactly one recorded outcome — even when some outcomes' success flags are
false — and the number of recorded outcomes equals the number of entities
that entered scheduling.  (A preflight or execution `Err`, by contrast,
short-circuits collection, as the counterexample shows.) -/
theorem run_to_completion_of_all_jobs_complete (linter : String)
    (config : Configuration) (env : LintEnv) (pkgs : List Package)
    (bar : ProgressBar)
    (hall : ∀ p ∈ pkgs, ∃ t, (lintJob linter config env p).res = .ok t) :
    (lint_packages linter config env pkgs bar).logs.length = pkgs.length
    ∧ (lint_packages linter config env pkgs bar).logs.map (fun l => (l.name, l.version))
        = pkgs.map (fun p => (p.name, p.version)) := by
  obtain ⟨outs, h1, h2, _⟩ := runJobs_all_ok linter config env pkgs bar hall
  have hlen : outs.length = pkgs.length := by
    have := congrArg List.length h2
    simpa using this
  rw [lint_packages_of_collected_ok linter config env pkgs bar outs h1]
  by_cases hA : outs.all (fun o => o.statusSuccess) <;>
    simp [hA, logOutcome, hlen, Function.comp_def] <;>
    simpa [logOutcome, Function.comp_def] using h2

/-- Witness for C1 (amended): three entities whose jobs all complete, the
first with a failing exit status; all three outcomes are recorded. -/
theorem run_to_completion_witness :
    (∀ p ∈ [pkgGood, pkgGood2, pkgGood], ∃ t,
        (lintJob "lint" cfgW envFirstFails p).res = .ok t)
    ∧ (lint_packages "lint" cfgW envFirstFails [pkgGood, pkgGood2, pkgGood] bar0).logs.length
        = [pkgGood, pkgGood2, pkgGood].length
    ∧ (lint_packages "lint" cfgW envFirstFails [pkgGood, pkgGood2, pkgGood] bar0).logs.map
          (fun l => (l.name, l.version))
        = [pkgGood, pkgGood2, pkgGood].map (fun p => (p.name, p.version)) := by
  have hall : ∀ p ∈ [pkgGood, pkgGood2, pkgGood], ∃ t,
      (lintJob "lint" cfgW envFirstFails p).res = .ok t := by
    intro p hp
    simp only [List.mem_cons, List.not_mem_nil, or_false] at hp
    rcases hp with rfl | rfl | rfl
    · exact ⟨_, rfl⟩
    · exact ⟨_, rfl⟩
    · exact ⟨_, rfl⟩
  have h := run_to_completion_of_all_jobs_complete "lint" cfgW envFirstFails
    [pkgGood, pkgGood2, pkgGood] bar0 hall
  exact ⟨hall, h.1, h.2⟩

/-! C3 — aggregate reduction. -/

/-- C3: when collection succeeds with the list of per-entity outcomes, the
run fails if and only if at least one outcome's success flag is false; in
that case the returned error is the constant `lintNotSuccessful` ("Linting
was not successful"), a constructor carrying no entity-level data; with all
flags true the run returns success. -/
theorem lint_aggregate_spec (linter : String) (config : Configuration)
    (env : LintEnv) (pkgs : List Package) (bar : ProgressBar)
    (outcomes : List JobOutcome)
    (h : (runJobs linter config env pkgs bar).collected = .ok outcomes) :
    ((lint_packages linter config env pkgs bar).result = .error .lintNotSuccessful
        ↔ ∃ o ∈ outcomes, o.statusSuccess = false)
    ∧ ((lint_packages linter config env pkgs bar).result = .ok ()
        ↔ ∀ o ∈ outcomes, o.statusSuccess = true)
    ∧ (∀ e, (lint_packages linter config env pkgs bar).result = .error e →
        e = .lintNotSuccessful) := by
  rw [lint_packages_of_collected_ok linter config env pkgs bar outcomes h]
  by_cases hA : outcomes.all (fun o => o.statusSuccess)
  · simp [hA]
    exact fun x hx => List.all_eq_true.mp hA x hx
  · simp [hA]
    have hex := mt List.all_eq_true.mpr hA
    push_neg at hex
    obtain ⟨x, hx, hfalse⟩ := hex
    exact ⟨x, hx, by simpa using hfalse⟩

/-- Witness for C3: two completing jobs, the first with a failing exit
status; the aggregate is the summarizing error. -/
theorem lint_aggregate_spec_witness :
    ((runJobs "lint" cfgW envFirstFails [pkgGood, pkgGood2] bar0).collected
        = .ok [⟨"pkg-a", "1.0", false, "out", "err"⟩, ⟨"pkg-d", "1.0", true, "out", "err"⟩])
    ∧ (lint_packages "lint" cfgW envFirstFails [pkgGood, pkgGood2] bar0).result
        = .error .lintNotSuccessful := by
  refine ⟨rfl, ?_⟩
  exact (lint_aggregate_spec "lint" cfgW envFirstFails [pkgGood, pkgGood2] bar0
    [⟨"pkg-a", "1.0", false, "out", "err"⟩, ⟨"pkg-d", "1.0", true, "out", "err"⟩] rfl).1.mpr
    ⟨⟨"pkg-a", "1.0", false, "out", "err"⟩, by simp, rfl⟩

/-! C4 — progress reporting. -/

/-- C4: when every job completes with an outcome tuple, the completion
counter is incremented exactly once per job — the final count is the initial
count plus the number of jobs, whatever each outcome's success flag is — and
on overall completion the bar is finished with one of exactly two distinct
summary messages, chosen by whether the aggregate result is success or
failure. -/
theorem progress_reporting_spec (linter : String) (config : Configuration)
    (env : LintEnv) (pkgs : List Package) (bar : ProgressBar)
    (hall : ∀ p ∈ pkgs, ∃ t, (lintJob linter config env p).res = .ok t) :
    ∃ outcomes,
      (runJobs linter config env pkgs bar).collected = .ok outcomes
      ∧ (lint_packages linter config env pkgs bar).bar.count = bar.count + pkgs.length
      ∧ (lint_packages linter config env pkgs bar).bar.finished = true
      ∧ (lint_packages linter config env pkgs bar).bar.message =
          (if outcomes.all (fun o => o.statusSuccess)
            then s!"Finished linting {pkgs.length} package scripts"
            else "Linting errored")
      ∧ s!"Finished linting {pkgs.length} package scripts" ≠ "Linting errored" := by
  obtain ⟨outs, h1, h2, h3⟩ := runJobs_all_ok linter config env pkgs bar hall
  have hlen : outs.length = pkgs.length := by
    have := congrArg List.length h2
    simpa using this
  rw [lint_packages_of_collected_ok linter config env pkgs bar outs h1]
  refine ⟨outs, h1, ?_, ?_, ?_, finish_message_distinct pkgs.length⟩ <;>
    by_cases hA : outs.all (fun o => o.statusSuccess) <;>
    simp [hA, ProgressBar.finish_with_message, h3, hlen]

/-- Witness for C4: two completing jobs with one failing exit status; the
counter advanced by two and the bar finished with the failure summary. -/
theorem progress_reporting_spec_witness :
    (∀ p ∈ [pkgGood, pkgGood2], ∃ t, (lintJob "lint" cfgW envFirstFails p).res = .ok t)
    ∧ ∃ outcomes,
        (runJobs "lint" cfgW envFirstFails [pkgGood, pkgGood2] bar0).collected = .ok outcomes
        ∧ (lint_packages "lint" cfgW envFirstFails [pkgGood, pkgGood2] bar0).bar.count
            = bar0.count + [pkgGood, pkgGood2].length
        ∧ (lint_packages "lint" cfgW envFirstFails [pkgGood, pkgGood2] bar0).bar.finished = true
        ∧ (lint_packages "lint" cfgW envFirstFails [pkgGood, pkgGood2] bar0).bar.message =
            (if outcomes.all (fun o => o.statusSuccess)
              then s!"Finished linting {[pkgGood, pkgGood2].length} package scripts"
              else "Linting errored")
        ∧ s!"Finished linting {[pkgGood, pkgGood2].length} package scripts" ≠ "Linting errored" := by
  have hall : ∀ p ∈ [pkgGood, pkgGood2], ∃ t,
      (lintJob "lint" cfgW envFirstFails p).res = .ok t := by
    intro p hp
    simp only [List.mem_cons, List.not_mem_nil, or_false] at hp
    rcases hp with rfl | rfl
    · exact ⟨_, rfl⟩
    · exact ⟨_, rfl⟩
  exact ⟨hall, progress_reporting_spec "lint" cfgW envFirstFails [pkgGood, pkgGood2] bar0 hall⟩

/-! C6 — working-set filtering. -/

/-- C6: the filtered sequence contains exactly the packages satisfying every
supplied predicate — name equality and version-constraint match, combined by
logical AND — an absent predicate admits every package, and with no predicate
the filter is the identity on the repository's package sequence (the
repository itself is never modified: `filterPackages` only reads it). -/
theorem working_set_filter_spec (repo : Repository) (pname : Option String)
    (pvers : Option PackageVersionConstraint) :
    (∀ p, p ∈ filterPackages repo pname pvers ↔
        (p ∈ repo.packages
          ∧ (∀ n, pname = some n → p.name = n)
          ∧ (∀ v, pvers = some v → v.matches' p.version = true)))
    ∧ filterPackages repo none none = repo.packages := by
  constructor
  · intro p
    cases pname <;> cases pvers <;>
      simp [filterPackages, List.mem_filter, and_assoc] <;> tauto
  · simp [filterPackages]

/-- Witness for C6: concrete repository, name filter `pkg-a` and no version
filter. -/
theorem working_set_filter_spec_witness :
    (pkgGood ∈ filterPackages repoW (some "pkg-a") none ↔
      (pkgGood ∈ repoW.packages
        ∧ (∀ n, (some "pkg-a" : Option String) = some n → pkgGood.name = n)
        ∧ (∀ v, (none : Option PackageVersionConstraint) = some v →
            v.matches' pkgGood.version = true)))
    ∧ filterPackages repoW none none = repoW.packages :=
  ⟨(working_set_filter_spec repoW (some "pkg-a") none).1 pkgGood,
   (working_set_filter_spec repoW none none).2⟩

/-! C7 — pre-dispatch fatality of `lint`. -/

/-- C7: a missing linter executable (or a failing linter lookup) and a
malformed version-constraint argument each make `lint` return an immediate
error with no job constructed or scheduled: no log record is emitted, no
linter subprocess runs, and the progress bar is untouched. -/
theorem lint_pre_dispatch_fatal (findLinter : Except String (Option String))
    (pnameArg pversArg : Option String)
    (parseV : String → Except String PackageVersionConstraint)
    (config : Configuration) (env : LintEnv) (repo : Repository)
    (bar : ProgressBar) :
    (findLinter = .ok none →
        lint findLinter pnameArg pversArg parseV config env repo bar
          = ⟨.error .noLinterFound, bar, [], []⟩)
    ∧ (∀ e, findLinter = .error e →
        lint findLinter pnameArg pversArg parseV config env repo bar
          = ⟨.error (.linterLookup e), bar, [], []⟩)
    ∧ (∀ l s e, findLinter = .ok (some l) → pversArg = some s → parseV s = .error e →
        lint findLinter pnameArg pversArg parseV config env repo bar
          = ⟨.error (.filterParse e), bar, [], []⟩) := by
  refine ⟨?_, ?_, ?_⟩
  · intro h
    subst h
    rfl
  · intro e h
    subst h
    rfl
  · intro l s e h1 h2 h3
    subst h1
    subst h2
    simp [lint, transposeMap, h3, Except.map]

/-- Witness for C7: with the linter lookup yielding no command, and
separately with an unparsable version-constraint argument, `lint` returns
the corresponding error and runs nothing. -/
theorem lint_pre_dispatch_fatal_witness :
    (lint (.ok none) none none parseExact cfgW envAllOk repoW bar0
        = ⟨.error .noLinterFound, bar0, [], []⟩)
    ∧ (lint (.ok (some "lint")) none (some "bogus") parseFailAll cfgW envAllOk repoW bar0
        = ⟨.error (.filterParse ("invalid constraint: " ++ "bogus")), bar0, [], []⟩) :=
  ⟨(lint_pre_dispatch_fatal (.ok none) none none parseExact cfgW envAllOk repoW bar0).1 rfl,
   (lint_pre_dispatch_fatal (.ok (some "lint")) none (some "bogus") parseFailAll cfgW
      envAllOk repoW bar0).2.2 "lint" "bogus" ("invalid constraint: " ++ "bogus") rfl rfl rfl⟩

/-! C5 — tri-state source verification. -/

/-- C5: for every package of the filtered working set, `verify` prints
exactly one line: `Source missing: <path>` when the cached artifact is
absent, `Ok: <path>` when it is present and the recomputed hash equals the
recorded expected hash, and `Hash Mismatch: <path>` when it is present and
the hashes differ; the number of lines equals the number of packages in the
working set. -/
theorem source_verify_tristate (pnameArg pversArg : Option String)
    (parseV : String → Except String PackageVersionConstraint)
    (pvers : Option PackageVersionConstraint) (sc : SourceCache)
    (repo : Repository)
    (h : transposeMap parseV pversArg = .ok pvers) :
    verify pnameArg pversArg parseV sc repo
      = .ok ((filterPackages repo pnameArg pvers).map (fun p =>
          let source := sc.source_for p
          if source.present = false then s!"Source missing: {source.path}"
          else if source.computedHash = source.expectedHash then s!"Ok: {source.path}"
          else s!"Hash Mismatch: {source.path}"))
    ∧ ∀ lines, verify pnameArg pversArg parseV sc repo = .ok lines →
        lines.length = (filterPackages repo pnameArg pvers).length := by
  have hmain : verify pnameArg pversArg parseV sc repo
      = .ok ((filterPackages repo pnameArg pvers).map (fun p =>
          let source := sc.source_for p
          if source.present = false then s!"Source missing: {source.path}"
          else if source.computedHash = source.expectedHash then s!"Ok: {source.path}"
          else s!"Hash Mismatch: {source.path}")) := by
    simp only [verify, h]
    refine congrArg Except.ok (List.map_congr_left ?_)
    intro p hp
    cases hpres : (sc.source_for p).present
    · simp [hpres]
    · by_cases hce : (sc.source_for p).computedHash = (sc.source_for p).expectedHash <;>
        simp [hpres, Source.verify_hash, hce]
  refine ⟨hmain, ?_⟩
  intro lines hl
  rw [hmain] at hl
  obtain rfl := (Except.ok.inj hl).symm
  simp

/-- Witness for C5: in the concrete cache only `pkg-a`'s artifact is present
(with matching hash); the three packages yield `Ok`, `Source missing`,
`Source missing` — one line each. -/
theorem source_verify_tristate_witness :
    (transposeMap parseExact (none : Option String) = .ok none)
    ∧ (verify none none parseExact scW repoW
        = .ok ["Ok: /cache/pkg-a", "Source missing: /cache/pkg-b",
            "Source missing: /cache/pkg-c"])
    ∧ (verify none none parseExact scW repoW
        = .ok ((filterPackages repoW none none).map (fun p =>
            let source := scW.source_for p
            if source.present = false then s!"Source missing: {source.path}"
            else if source.computedHash = source.expectedHash then s!"Ok: {source.path}"
            else s!"Hash Mismatch: {source.path}"))
       ∧ ∀ lines, verify none none parseExact scW repoW = .ok lines →
           lines.length = (filterPackages repoW none none).length) :=
  ⟨rfl, by decide, source_verify_tristate none none parseExact none scW repoW rfl⟩

/-! C8 — `source url` touches no cache. -/

/-- C8: for every filtered package, `url` prints the line
`<name> <version> -> <url>` taken from the package's own source descriptor,
and its output is independent of the source cache — the cache handle it is
handed is never consulted (the original creates no cache handle at all). -/
theorem source_url_no_cache (pnameArg pversArg : Option String)
    (parseV : String → Except String PackageVersionConstraint)
    (pvers : Option PackageVersionConstraint) (sc : SourceCache)
    (repo : Repository)
    (h : transposeMap parseV pversArg = .ok pvers) :
    url pnameArg pversArg parseV sc repo
      = .ok ((filterPackages repo pnameArg pvers).map (fun p =>
          s!"{p.name} {p.version} -> {p.source.url}"))
    ∧ ∀ sc2, url pnameArg pversArg parseV sc repo
        = url pnameArg pversArg parseV sc2 repo := by
  refine ⟨?_, fun sc2 => rfl⟩
  simp only [url, h]

/-- Witness for C8: concrete repository with an exact-version filter; the
output lines come from the packages' source descriptors and are the same for
any two caches. -/
theorem source_url_no_cache_witness :
    (transposeMap parseExact (some "1.0") = .ok (some ⟨fun v => v == "1.0"⟩))
    ∧ (url none (some "1.0") parseExact scW repoW
        = .ok ((filterPackages repoW none (some ⟨fun v => v == "1.0"⟩)).map (fun p =>
            s!"{p.name} {p.version} -> {p.source.url}"))
       ∧ ∀ sc2, url none (some "1.0") parseExact scW repoW
           = url none (some "1.0") parseExact sc2 repoW) :=
  ⟨rfl, source_url_no_cache none (some "1.0") parseExact
    (some ⟨fun v => v == "1.0"⟩) scW repoW rfl⟩

/-! C10 — `versions_of` unwraps its argument. -/

/-- C10: `versions_of` unconditionally unwraps the `package_name` argument:
with the argument absent it panics (`none` models the `Option::unwrap`
panic) instead of returning an error value, and with the argument present it
returns normally. -/
theorem versions_of_unwrap_spec :
    (∀ repo, versions_of none repo = none)
    ∧ (∀ nm repo, ∃ out, versions_of (some nm) repo = some out) :=
  ⟨fun _ => rfl, fun _ _ => ⟨_, rfl⟩⟩

end Butido
